import Mathlib

/-!
Verification of the nine-slice (end-cap) image resizer in
`capresize.py` (function `resize_with_caps` and its helper closures
`render_across` / `render_down`).

The embedding is shallow: a pygame surface is a rectangular pixel
buffer, modelled as integral dimensions together with a pixel-lookup
function; `Surface.blit` is modelled as an in-place rectangular copy
clipped to the destination bounds (the spec declares alpha-blending
policy a non-goal, so a blit is a plain overwrite); `subsurface` is an
offset view.  The growth step of the algorithm is represented as the
explicit list of blit operations the Python code issues, in issue
order, and the resulting surface is the left fold of those blits over
the freshly allocated (all-zero, i.e. transparent) destination.
Python-level failures (assert failure, tuple-unpacking errors, integer
or float division by zero) are modelled as an `Except` error result.
All quantities are integers (`ℤ`); Python `//` on these operands is
floor division, which for the divisors involved coincides with `ℤ`
division (`Int.ediv`).
-/

/-- Pixel buffer: width, height, and pixel lookup.  Pixel values are
modelled as integers; `0` is the transparent pixel a fresh
`pygame.surface.Surface(..., SRCALPHA, 32)` is filled with. -/
structure Surface where
  w : ℤ
  h : ℤ
  pix : ℤ → ℤ → ℤ

/-- Rectangle `(x, y, w, h)`, mirroring `pygame.Rect`. -/
structure Rect where
  x : ℤ
  y : ℤ
  w : ℤ
  h : ℤ

/-- One recorded `dst.blit(tile, (px, py), clip?)` call: the source
surface, the destination position, and the optional source-area
rectangle (third argument of `pygame.Surface.blit`). -/
structure Blit where
  tile : Surface
  px : ℤ
  py : ℤ
  clip : Option Rect

/-- Effective source area of a blit: the given clip rectangle, or the
whole source surface when the area argument is omitted. -/
def clipOf (b : Blit) : Rect :=
  match b.clip with
  | none => ⟨0, 0, b.tile.w, b.tile.h⟩
  | some r => r

/-- Does the blit `b`, executed on a destination of size `dw × dh`,
write the destination pixel `(x, y)`?  Mirrors pygame blit semantics:
the copied region is the source area translated to `(px, py)`, clipped
to the destination bounds and to the source surface bounds. -/
def blitCovers (dw dh : ℤ) (b : Blit) (x y : ℤ) : Bool :=
  decide (0 ≤ x ∧ x < dw ∧ 0 ≤ y ∧ y < dh ∧
    b.px ≤ x ∧ x < b.px + (clipOf b).w ∧ b.py ≤ y ∧ y < b.py + (clipOf b).h ∧
    0 ≤ (clipOf b).x + (x - b.px) ∧ (clipOf b).x + (x - b.px) < b.tile.w ∧
    0 ≤ (clipOf b).y + (y - b.py) ∧ (clipOf b).y + (y - b.py) < b.tile.h)

/-- Execute one blit on a destination surface (in-place rectangular
copy, overwriting covered pixels and leaving the rest). -/
def applyBlit (d : Surface) (b : Blit) : Surface :=
  { w := d.w, h := d.h,
    pix := fun x y =>
      if blitCovers d.w d.h b x y then
        b.tile.pix ((clipOf b).x + (x - b.px)) ((clipOf b).y + (y - b.py))
      else d.pix x y }

/-- Execute a list of blits in order. -/
def paint (init : Surface) (bs : List Blit) : Surface :=
  bs.foldl applyBlit init

/-- Number of blits in `bs` that write destination pixel `(x, y)`
(destination size `dw × dh`). -/
def writeCount (dw dh : ℤ) (bs : List Blit) (x y : ℤ) : ℕ :=
  (bs.filter (fun b => blitCovers dw dh b x y)).length

/-- Offset read-only view, mirroring `src.subsurface(Rect(rx, ry, rw, rh))`. -/
def subsurface (s : Surface) (rx ry rw rh : ℤ) : Surface :=
  ⟨rw, rh, fun x y => s.pix (rx + x) (ry + y)⟩

/-- Freshly allocated destination surface: all pixels transparent
(`0`), mirroring `pygame.surface.Surface((w, h), SRCALPHA, 32)`. -/
def mkBlank (w h : ℤ) : Surface :=
  ⟨w, h, fun _ _ => 0⟩

/-- Modelled from the spec: `pygame.transform.smoothscale` is an
external collaborator of the repository (spec §6: `resample(ImageView,
target_size) -> Image`, a continuous resampling).  It is modelled as a
point-sampling resampler; what the claims use of it is only its output
size and that resampling a region to its own size is the identity
(spec §8), both of which hold of this model. -/
def smoothscale (s : Surface) (tw th : ℤ) : Surface :=
  ⟨tw, th, fun x y => s.pix (x * s.w / tw) (y * s.h / th)⟩

/-- Python exceptions that `resize_with_caps` can raise. -/
inductive PyErr where
  | assertionError
  | typeError
  | valueError
  | zeroDivisionError
deriving DecidableEq

/-- Cap resolution, mirroring lines 71–76 of `capresize.py`.
With `cap_insets=None` the code first asserts that both source
dimensions are odd (`AssertionError` otherwise) and then executes
`cl, cr = sw // 2`, which unpacks an `int` and therefore raises
`TypeError` unconditionally.  With an explicit `cap_insets`, the code
unpacks exactly four values `cl, ct, cr, cb` (`ValueError` for any
other length). -/
def resolveCaps (sw sh : ℤ) (cap_insets : Option (List ℤ)) :
    Except PyErr (ℤ × ℤ × ℤ × ℤ) :=
  match cap_insets with
  | none =>
      if sw % 2 = 1 ∧ sh % 2 = 1 then .error .typeError
      else .error .assertionError
  | some l =>
      match l with
      | [cl, ct, cr, cb] => .ok (cl, ct, cr, cb)
      | _ => .error .valueError

/-- Destination-height resolution, mirroring lines 78–80:
`if dh == 0: dh = int(sh * dw / float(sw))`.  The Python float
division is modelled as exact real division (for the nonnegative
sizes involved `int` truncation of the exact quotient is `ℤ` floor
division). -/
def resolveDh (sw sh dw dh : ℤ) : ℤ :=
  if dh = 0 then sh * dw / sw else dh

/-- Truncation toward zero of a rational, mirroring Python `int()`. -/
def truncToZero (q : ℚ) : ℤ :=
  if 0 ≤ q then ⌊q⌋ else ⌈q⌉

/-- The four corner blits, lines 93–96 of `capresize.py`, in issue
order A, C, G, I (pygame uses only the top-left corner of the
destination rectangle argument, so each is a position plus source
area). -/
def capBlits (src : Surface) (dw dh cl ct cr cb : ℤ) : List Blit :=
  [⟨src, 0, 0, some ⟨0, 0, cl, ct⟩⟩,
   ⟨src, dw - cr, 0, some ⟨src.w - cr, 0, cr, ct⟩⟩,
   ⟨src, 0, dh - cb, some ⟨0, src.h - cb, cl, cb⟩⟩,
   ⟨src, dw - cr, dh - cb, some ⟨src.w - cr, src.h - cb, cr, cb⟩⟩]

/-- Destination surface after allocation and the four corner blits
(state of `dst` at line 96, before any growth rendering). -/
def dstAfterCaps (src : Surface) (dw dh cl ct cr cb : ℤ) : Surface :=
  paint (mkBlank dw dh) (capBlits src dw dh cl ct cr cb)

/-- The five blits of the scale/stretch branch, lines 106–112. -/
def scaleBlits (src : Surface) (dw dh cl ct cr cb : ℤ) : List Blit :=
  let sw := src.w
  let sh := src.h
  let smw := sw - cl - cr
  let smh := sh - cb - ct
  let dmw := dw - cl - cr
  let dmh := dh - cb - ct
  let B := subsurface src cl 0 smw ct
  let D := subsurface src 0 ct cl smh
  let E := subsurface src cl ct smw smh
  let F := subsurface src (sw - cr) ct cr smh
  let H := subsurface src cl (sh - cb) smw cb
  [⟨smoothscale B dmw ct, cl, 0, none⟩,
   ⟨smoothscale D cl dmh, 0, ct, none⟩,
   ⟨smoothscale E dmw dmh, cl, ct, none⟩,
   ⟨smoothscale F cr dmh, dw - cr, ct, none⟩,
   ⟨smoothscale H dmw cb, cl, dh - cb, none⟩]

/-- The helper closure `render_across(tile, y, h)` (lines 120–126):
`n` full tiles advancing `x` from `cl` by `smw` each time, then, if
the horizontal remainder is positive, one final blit clipped to
`Rect(0, 0, rem, h)`. -/
def renderAcross (smw remA : ℤ) (n : ℕ) (tile : Surface) (cl y h : ℤ) :
    List Blit :=
  ((List.range n).map fun i => ⟨tile, cl + (i : ℤ) * smw, y, none⟩)
  ++ (if 0 < remA then [⟨tile, cl + (n : ℤ) * smw, y, some ⟨0, 0, remA, h⟩⟩]
      else [])

/-- The helper closure `render_down(tile, x, w)` (lines 131–137). -/
def renderDown (smh remD : ℤ) (n : ℕ) (tile : Surface) (ct x w : ℤ) :
    List Blit :=
  ((List.range n).map fun i => ⟨tile, x, ct + (i : ℤ) * smh, none⟩)
  ++ (if 0 < remD then [⟨tile, x, ct + (n : ℤ) * smh, some ⟨0, 0, w, remD⟩⟩]
      else [])

/-- The blits of the tile branch, lines 113–153, in issue order:
top edge `B`, bottom edge `H` (at `y = dh - smh` as the code writes,
not `dh - cb`), left edge `D`, right edge `F` (at `x = dw - smw` as
the code writes, not `dw - cr`), then the full center rows, then the
vertical-remainder center row. -/
def tileBlits (src : Surface) (dw dh cl ct cr cb : ℤ) : List Blit :=
  let sw := src.w
  let sh := src.h
  let smw := sw - cl - cr
  let smh := sh - cb - ct
  let dmw := dw - cl - cr
  let dmh := dh - cb - ct
  let B := subsurface src cl 0 smw ct
  let D := subsurface src 0 ct cl smh
  let E := subsurface src cl ct smw smh
  let F := subsurface src (sw - cr) ct cr smh
  let H := subsurface src cl (sh - cb) smw cb
  let nA := (dmw / smw).toNat
  let remA := dmw - (dmw / smw) * smw
  let nD := (dmh / smh).toNat
  let remD := dmh - (dmh / smh) * smh
  renderAcross smw remA nA B cl 0 ct
  ++ renderAcross smw remA nA H cl (dh - smh) cb
  ++ renderDown smh remD nD D ct 0 cl
  ++ renderDown smh remD nD F ct (dw - smw) cr
  ++ ((List.range nD).flatMap fun j =>
        renderAcross smw remA nA E cl (ct + (j : ℤ) * smh) smh)
  ++ (if 0 < remD then
        ((List.range nA).map fun i =>
          ⟨E, cl + (i : ℤ) * smw, ct + (nD : ℤ) * smh, some ⟨0, 0, smw, remD⟩⟩)
        ++ (if 0 < remA then
              [⟨E, cl + (nA : ℤ) * smw, ct + (nD : ℤ) * smh,
                some ⟨0, 0, remA, remD⟩⟩]
            else [])
      else [])

/-- Growth-step blits by mode: the scale branch for
`'scale'`/`'stretch'`, the tile branch for `'tile'`, and no blits at
all for any other mode string (the code has no `else` branch). -/
def growthBlits (src : Surface) (dw dh cl ct cr cb : ℤ) (grow : String) :
    List Blit :=
  if grow = "scale" ∨ grow = "stretch" then scaleBlits src dw dh cl ct cr cb
  else if grow = "tile" then tileBlits src dw dh cl ct cr cb
  else []

/-- The full `resize_with_caps(src, dst_size, cap_insets, grow)` of
`capresize.py`.  Failure cases, in Python evaluation order: cap
resolution errors (lines 71–76); `ZeroDivisionError` from
`sh * dw / float(sw)` when the requested height is the sentinel `0`
and `sw = 0` (line 80); `ZeroDivisionError` from `dmw // smw` or
`dmh // smh` (lines 114, 117) in tile mode when the source middle is
zero-sized on either axis — note this last error is raised only after
the destination has been allocated and the four corner blits executed,
so the buffer state at the moment of that failure is `dstAfterCaps`.
On success the result is the corner blits followed by the growth-mode
blits.  Not modelled: the pygame errors that invalid arguments can
raise before the mode dispatch — `ValueError` from an out-of-bounds
`subsurface` rectangle (lines 100–104) and the allocation failure for
a negative destination size (line 82).  Every general theorem below
about a completed call therefore carries the `capsOk` validity
hypothesis (caps nonnegative and fitting both surfaces), under which
none of those unmodelled paths can fire in the real code. -/
def resize_with_caps (src : Surface) (dst_size : ℤ × ℤ)
    (cap_insets : Option (List ℤ)) (grow : String) : Except PyErr Surface :=
  match resolveCaps src.w src.h cap_insets with
  | .error e => .error e
  | .ok (cl, ct, cr, cb) =>
      if dst_size.2 = 0 ∧ src.w = 0 then .error .zeroDivisionError
      else
        let dw := dst_size.1
        let dh := resolveDh src.w src.h dw dst_size.2
        if grow = "tile" ∧ (src.w - cl - cr = 0 ∨ src.h - cb - ct = 0) then
          .error .zeroDivisionError
        else
          .ok (paint (dstAfterCaps src dw dh cl ct cr cb)
                (growthBlits src dw dh cl ct cr cb grow))

/-- Pixel `(x, y)` of the result of a call, or `none` if the call
raised. -/
def pixAt (e : Except PyErr Surface) (x y : ℤ) : Option ℤ :=
  match e with
  | .ok d => some (d.pix x y)
  | .error _ => none

/-- Membership in one of the four `cl×ct` / `cr×ct` / `cl×cb` / `cr×cb`
corner rectangles of a `dw × dh` destination. -/
def cornerPt (dw dh cl ct cr cb x y : ℤ) : Prop :=
  ((0 ≤ x ∧ x < cl) ∨ (dw - cr ≤ x ∧ x < dw)) ∧
  ((0 ≤ y ∧ y < ct) ∨ (dh - cb ≤ y ∧ y < dh))

/-- Validity of explicit cap insets for a given source and destination:
nonnegative insets that fit inside both surfaces (spec §3 invariant). -/
def capsOk (src : Surface) (dw dh cl ct cr cb : ℤ) : Prop :=
  0 ≤ cl ∧ 0 ≤ ct ∧ 0 ≤ cr ∧ 0 ≤ cb ∧
  cl + cr ≤ src.w ∧ ct + cb ≤ src.h ∧ cl + cr ≤ dw ∧ ct + cb ≤ dh

instance (src : Surface) (dw dh cl ct cr cb : ℤ) :
    Decidable (capsOk src dw dh cl ct cr cb) := by
  unfold capsOk; exact inferInstance

lemma applyBlit_w (d : Surface) (b : Blit) : (applyBlit d b).w = d.w := rfl

lemma applyBlit_h (d : Surface) (b : Blit) : (applyBlit d b).h = d.h := rfl

lemma paint_w (bs : List Blit) (init : Surface) : (paint init bs).w = init.w := by
  induction bs generalizing init with
  | nil => rfl
  | cons b t ih => simpa [paint, List.foldl_cons] using ih (applyBlit init b)

lemma paint_h (bs : List Blit) (init : Surface) : (paint init bs).h = init.h := by
  induction bs generalizing init with
  | nil => rfl
  | cons b t ih => simpa [paint, List.foldl_cons] using ih (applyBlit init b)

lemma paint_pix_not_covered {dw dh : ℤ} (bs : List Blit) (init : Surface)
    (hw : init.w = dw) (hh : init.h = dh) (x y : ℤ)
    (h : ∀ b ∈ bs, blitCovers dw dh b x y = false) :
    (paint init bs).pix x y = init.pix x y := by
  induction bs generalizing init with
  | nil => rfl
  | cons b t ih =>
      have hb := h b (List.mem_cons_self b t)
      have hstep : (applyBlit init b).pix x y = init.pix x y := by
        simp [applyBlit, hw, hh, hb]
      have := ih (applyBlit init b) (by simp [applyBlit_w, hw])
        (by simp [applyBlit_h, hh]) (fun b' hb' => h b' (List.mem_cons_of_mem b hb'))
      simpa [paint, List.foldl_cons, hstep] using this

lemma dstAfterCaps_w (src : Surface) (dw dh cl ct cr cb : ℤ) :
    (dstAfterCaps src dw dh cl ct cr cb).w = dw := by
  simp [dstAfterCaps, paint_w, mkBlank]

lemma dstAfterCaps_h (src : Surface) (dw dh cl ct cr cb : ℤ) :
    (dstAfterCaps src dw dh cl ct cr cb).h = dh := by
  simp [dstAfterCaps, paint_h, mkBlank]

lemma dstAfterCaps_pix_topLeft {src : Surface} {dw dh cl ct cr cb : ℤ}
    (h : capsOk src dw dh cl ct cr cb) {x y : ℤ}
    (hx : 0 ≤ x) (hx2 : x < cl) (hy : 0 ≤ y) (hy2 : y < ct) :
    (dstAfterCaps src dw dh cl ct cr cb).pix x y = src.pix x y := by
  obtain ⟨h1, h2, h3, h4, h5, h6, h7, h8⟩ := h
  simp only [dstAfterCaps, capBlits, paint, List.foldl_cons, List.foldl_nil,
    applyBlit, mkBlank]
  split_ifs with hc4 hc3 hc2 hc1
  · exfalso
    simp only [blitCovers, clipOf, decide_eq_true_eq] at hc4; omega
  · exfalso
    simp only [blitCovers, clipOf, decide_eq_true_eq] at hc3; omega
  · exfalso
    simp only [blitCovers, clipOf, decide_eq_true_eq] at hc2; omega
  · simp only [clipOf]; norm_num
  · exfalso
    apply hc1
    simp only [blitCovers, clipOf, decide_eq_true_eq]; omega

lemma dstAfterCaps_pix_topRight {src : Surface} {dw dh cl ct cr cb : ℤ}
    (h : capsOk src dw dh cl ct cr cb) {x y : ℤ}
    (hx : dw - cr ≤ x) (hx2 : x < dw) (hy : 0 ≤ y) (hy2 : y < ct) :
    (dstAfterCaps src dw dh cl ct cr cb).pix x y = src.pix (x - dw + src.w) y := by
  obtain ⟨h1, h2, h3, h4, h5, h6, h7, h8⟩ := h
  simp only [dstAfterCaps, capBlits, paint, List.foldl_cons, List.foldl_nil,
    applyBlit, mkBlank]
  split_ifs with hc4 hc3 hc2 hc1
  · exfalso
    simp only [blitCovers, clipOf, decide_eq_true_eq] at hc4; omega
  · exfalso
    simp only [blitCovers, clipOf, decide_eq_true_eq] at hc3; omega
  · simp only [clipOf]
    have e1 : src.w - cr + (x - (dw - cr)) = x - dw + src.w := by ring
    have e2 : (0 : ℤ) + (y - 0) = y := by ring
    rw [e1, e2]
  · exfalso
    simp only [blitCovers, clipOf, decide_eq_true_eq] at hc1; omega
  · exfalso
    apply hc2
    simp only [blitCovers, clipOf, decide_eq_true_eq]; omega

lemma dstAfterCaps_pix_botLeft {src : Surface} {dw dh cl ct cr cb : ℤ}
    (h : capsOk src dw dh cl ct cr cb) {x y : ℤ}
    (hx : 0 ≤ x) (hx2 : x < cl) (hy : dh - cb ≤ y) (hy2 : y < dh) :
    (dstAfterCaps src dw dh cl ct cr cb).pix x y = src.pix x (y - dh + src.h) := by
  obtain ⟨h1, h2, h3, h4, h5, h6, h7, h8⟩ := h
  simp only [dstAfterCaps, capBlits, paint, List.foldl_cons, List.foldl_nil,
    applyBlit, mkBlank]
  split_ifs with hc4 hc3 hc2 hc1
  · exfalso
    simp only [blitCovers, clipOf, decide_eq_true_eq] at hc4; omega
  · simp only [clipOf]
    have e1 : (0 : ℤ) + (x - 0) = x := by ring
    have e2 : src.h - cb + (y - (dh - cb)) = y - dh + src.h := by ring
    rw [e1, e2]
  · exfalso
    simp only [blitCovers, clipOf, decide_eq_true_eq] at hc2; omega
  · exfalso
    simp only [blitCovers, clipOf, decide_eq_true_eq] at hc1; omega
  · exfalso
    apply hc3
    simp only [blitCovers, clipOf, decide_eq_true_eq]; omega

lemma dstAfterCaps_pix_botRight {src : Surface} {dw dh cl ct cr cb : ℤ}
    (h : capsOk src dw dh cl ct cr cb) {x y : ℤ}
    (hx : dw - cr ≤ x) (hx2 : x < dw) (hy : dh - cb ≤ y) (hy2 : y < dh) :
    (dstAfterCaps src dw dh cl ct cr cb).pix x y =
      src.pix (x - dw + src.w) (y - dh + src.h) := by
  obtain ⟨h1, h2, h3, h4, h5, h6, h7, h8⟩ := h
  simp only [dstAfterCaps, capBlits, paint, List.foldl_cons, List.foldl_nil,
    applyBlit, mkBlank]
  split_ifs with hc4 hc3 hc2 hc1
  · simp only [clipOf]
    have e1 : src.w - cr + (x - (dw - cr)) = x - dw + src.w := by ring
    have e2 : src.h - cb + (y - (dh - cb)) = y - dh + src.h := by ring
    rw [e1, e2]
  · exfalso
    simp only [blitCovers, clipOf, decide_eq_true_eq] at hc3; omega
  · exfalso
    simp only [blitCovers, clipOf, decide_eq_true_eq] at hc2; omega
  · exfalso
    simp only [blitCovers, clipOf, decide_eq_true_eq] at hc1; omega
  · exfalso
    apply hc4
    simp only [blitCovers, clipOf, decide_eq_true_eq]; omega

lemma dstAfterCaps_pix_middle {src : Surface} {dw dh cl ct cr cb : ℤ}
    (h : capsOk src dw dh cl ct cr cb) {x y : ℤ}
    (hmid : (cl ≤ x ∧ x < dw - cr) ∨ (ct ≤ y ∧ y < dh - cb)) :
    (dstAfterCaps src dw dh cl ct cr cb).pix x y = 0 := by
  obtain ⟨h1, h2, h3, h4, h5, h6, h7, h8⟩ := h
  simp only [dstAfterCaps, capBlits, paint, List.foldl_cons, List.foldl_nil,
    applyBlit, mkBlank]
  split_ifs with hc4 hc3 hc2 hc1
  · exfalso
    simp only [blitCovers, clipOf, decide_eq_true_eq] at hc4; omega
  · exfalso
    simp only [blitCovers, clipOf, decide_eq_true_eq] at hc3; omega
  · exfalso
    simp only [blitCovers, clipOf, decide_eq_true_eq] at hc2; omega
  · exfalso
    simp only [blitCovers, clipOf, decide_eq_true_eq] at hc1; omega
  · rfl

lemma renderAcross_covers {dw dh smw remA : ℤ} {n : ℕ} {tile : Surface}
    {cl y0 h0 : ℤ} (htw : tile.w = smw) (hsm : 0 < smw) (hrem : 0 ≤ remA)
    {b : Blit} (hb : b ∈ renderAcross smw remA n tile cl y0 h0)
    {x y : ℤ} (hc : blitCovers dw dh b x y = true) :
    cl ≤ x ∧ x < cl + (n : ℤ) * smw + remA := by
  rcases List.mem_append.1 hb with hm | hm
  · obtain ⟨i, hi, rfl⟩ := List.mem_map.1 hm
    have hi2 : (i : ℤ) < (n : ℤ) := by exact_mod_cast List.mem_range.1 hi
    have hi0 : (0 : ℤ) ≤ (i : ℤ) := Int.ofNat_nonneg i
    simp only [blitCovers, clipOf, decide_eq_true_eq, htw] at hc
    have hnn : 0 ≤ (i : ℤ) * smw := mul_nonneg hi0 hsm.le
    have hub : ((i : ℤ) + 1) * smw ≤ (n : ℤ) * smw :=
      mul_le_mul_of_nonneg_right (by omega) hsm.le
    constructor
    · linarith [hc.2.2.2.2.1]
    · linarith [hc.2.2.2.2.2.1]
  · by_cases hra : 0 < remA
    · simp only [hra, if_pos, List.mem_singleton] at hm
      subst hm
      simp only [blitCovers, clipOf, decide_eq_true_eq] at hc
      have hnn : 0 ≤ (n : ℤ) * smw := mul_nonneg (Int.ofNat_nonneg n) hsm.le
      constructor
      · linarith [hc.2.2.2.2.1]
      · linarith [hc.2.2.2.2.2.1]
    · simp [hra] at hm

lemma renderDown_covers {dw dh smh remD : ℤ} {n : ℕ} {tile : Surface}
    {ct x0 w0 : ℤ} (hth : tile.h = smh) (hsm : 0 < smh) (hrem : 0 ≤ remD)
    {b : Blit} (hb : b ∈ renderDown smh remD n tile ct x0 w0)
    {x y : ℤ} (hc : blitCovers dw dh b x y = true) :
    ct ≤ y ∧ y < ct + (n : ℤ) * smh + remD := by
  rcases List.mem_append.1 hb with hm | hm
  · obtain ⟨i, hi, rfl⟩ := List.mem_map.1 hm
    have hi2 : (i : ℤ) < (n : ℤ) := by exact_mod_cast List.mem_range.1 hi
    have hi0 : (0 : ℤ) ≤ (i : ℤ) := Int.ofNat_nonneg i
    simp only [blitCovers, clipOf, decide_eq_true_eq, hth] at hc
    have hnn : 0 ≤ (i : ℤ) * smh := mul_nonneg hi0 hsm.le
    have hub : ((i : ℤ) + 1) * smh ≤ (n : ℤ) * smh :=
      mul_le_mul_of_nonneg_right (by omega) hsm.le
    constructor
    · linarith [hc.2.2.2.2.2.2.1]
    · linarith [hc.2.2.2.2.2.2.2.1]
  · by_cases hrd : 0 < remD
    · simp only [hrd, if_pos, List.mem_singleton] at hm
      subst hm
      simp only [blitCovers, clipOf, decide_eq_true_eq] at hc
      have hnn : 0 ≤ (n : ℤ) * smh := mul_nonneg (Int.ofNat_nonneg n) hsm.le
      constructor
      · linarith [hc.2.2.2.2.2.2.1]
      · linarith [hc.2.2.2.2.2.2.2.1]
    · simp [hrd] at hm

lemma scaleBlits_covers {src : Surface} {dw dh cl ct cr cb : ℤ}
    {b : Blit} (hb : b ∈ scaleBlits src dw dh cl ct cr cb)
    {x y : ℤ} (hc : blitCovers dw dh b x y = true) :
    (cl ≤ x ∧ x < dw - cr) ∨ (ct ≤ y ∧ y < dh - cb) := by
  simp only [scaleBlits, List.mem_cons, List.not_mem_nil, or_false] at hb
  rcases hb with rfl | rfl | rfl | rfl | rfl <;>
    simp only [blitCovers, clipOf, smoothscale, subsurface,
      decide_eq_true_eq] at hc
  · left; omega
  · right; omega
  · left; omega
  · right; omega
  · left; omega

lemma tileBlits_covers {src : Surface} {dw dh cl ct cr cb : ℤ}
    (hsm : 0 < src.w - cl - cr) (hsh : 0 < src.h - cb - ct)
    (hdm : 0 ≤ dw - cl - cr) (hdh2 : 0 ≤ dh - cb - ct)
    {b : Blit} (hb : b ∈ tileBlits src dw dh cl ct cr cb)
    {x y : ℤ} (hc : blitCovers dw dh b x y = true) :
    (cl ≤ x ∧ x < dw - cr) ∨ (ct ≤ y ∧ y < dh - cb) := by
  have hAcast : (((dw - cl - cr) / (src.w - cl - cr)).toNat : ℤ)
      = (dw - cl - cr) / (src.w - cl - cr) :=
    Int.toNat_of_nonneg (Int.ediv_nonneg hdm hsm.le)
  have hDcast : (((dh - cb - ct) / (src.h - cb - ct)).toNat : ℤ)
      = (dh - cb - ct) / (src.h - cb - ct) :=
    Int.toNat_of_nonneg (Int.ediv_nonneg hdh2 hsh.le)
  have hremA : 0 ≤ (dw - cl - cr) - (dw - cl - cr) / (src.w - cl - cr) * (src.w - cl - cr) := by
    have := Int.emod_nonneg (dw - cl - cr) (ne_of_gt hsm)
    rw [Int.emod_def] at this; linarith
  have hremD : 0 ≤ (dh - cb - ct) - (dh - cb - ct) / (src.h - cb - ct) * (src.h - cb - ct) := by
    have := Int.emod_nonneg (dh - cb - ct) (ne_of_gt hsh)
    rw [Int.emod_def] at this; linarith
  simp only [tileBlits, List.mem_append] at hb
  rcases hb with ((((hm | hm) | hm) | hm) | hm) | hm
  · -- top edge B
    have := renderAcross_covers (by rfl) hsm hremA hm hc
    rw [hAcast] at this
    left; constructor
    · exact this.1
    · linarith [this.2]
  · -- bottom edge H (blitted at y = dh - smh)
    have := renderAcross_covers (by rfl) hsm hremA hm hc
    rw [hAcast] at this
    left; constructor
    · exact this.1
    · linarith [this.2]
  · -- left edge D
    have := renderDown_covers (by rfl) hsh hremD hm hc
    rw [hDcast] at this
    right; constructor
    · exact this.1
    · linarith [this.2]
  · -- right edge F (blitted at x = dw - smw)
    have := renderDown_covers (by rfl) hsh hremD hm hc
    rw [hDcast] at this
    right; constructor
    · exact this.1
    · linarith [this.2]
  · -- full center rows
    obtain ⟨j, hj, hmem⟩ := List.mem_flatMap.1 hm
    have := renderAcross_covers (by rfl) hsm hremA hmem hc
    rw [hAcast] at this
    left; constructor
    · exact this.1
    · linarith [this.2]
  · -- vertical-remainder center row
    by_cases hrd : 0 < (dh - cb - ct) - (dh - cb - ct) / (src.h - cb - ct) * (src.h - cb - ct)
    · simp only [hrd, if_pos, List.mem_append] at hm
      rcases hm with hm | hm
      · obtain ⟨i, hi, rfl⟩ := List.mem_map.1 hm
        have hi2 : (i : ℤ) < (((dw - cl - cr) / (src.w - cl - cr)).toNat : ℤ) := by
          exact_mod_cast List.mem_range.1 hi
        rw [hAcast] at hi2
        simp only [blitCovers, clipOf, subsurface, decide_eq_true_eq] at hc
        have hnn : 0 ≤ (i : ℤ) * (src.w - cl - cr) :=
          mul_nonneg (Int.ofNat_nonneg i) hsm.le
        have hub : ((i : ℤ) + 1) * (src.w - cl - cr)
            ≤ (dw - cl - cr) / (src.w - cl - cr) * (src.w - cl - cr) :=
          mul_le_mul_of_nonneg_right (by omega) hsm.le
        left; constructor
        · linarith [hc.2.2.2.2.1]
        · linarith [hc.2.2.2.2.2.1]
      · by_cases hra : 0 < (dw - cl - cr) - (dw - cl - cr) / (src.w - cl - cr) * (src.w - cl - cr)
        · simp only [hra, if_pos, List.mem_singleton] at hm
          subst hm
          simp only [blitCovers, clipOf, subsurface, decide_eq_true_eq] at hc
          have hnn : 0 ≤ ((((dw - cl - cr) / (src.w - cl - cr)).toNat : ℤ)) * (src.w - cl - cr) :=
            mul_nonneg (Int.ofNat_nonneg _) hsm.le
          left; constructor
          · linarith [hc.2.2.2.2.1]
          · have h2 := hc.2.2.2.2.2.1
            rw [hAcast] at h2 hnn
            linarith
        · simp [hra] at hm
    · simp [hrd] at hm

lemma growthBlits_not_cover_corners {src : Surface} {dw dh cl ct cr cb : ℤ}
    {grow : String} (hcaps : capsOk src dw dh cl ct cr cb)
    (hmode : (grow = "scale" ∨ grow = "stretch") ∨
      (grow = "tile" ∧ 0 < src.w - cl - cr ∧ 0 < src.h - cb - ct)) :
    ∀ b ∈ growthBlits src dw dh cl ct cr cb grow, ∀ x y : ℤ,
      cornerPt dw dh cl ct cr cb x y → blitCovers dw dh b x y = false := by
  obtain ⟨h1, h2, h3, h4, h5, h6, h7, h8⟩ := hcaps
  intro b hbb x y hcp
  obtain ⟨hxor, hyor⟩ := hcp
  cases hcase : blitCovers dw dh b x y with
  | false => rfl
  | true =>
      exfalso
      rcases hmode with hsc | ⟨htl, hsm, hsh⟩
      · rw [growthBlits, if_pos hsc] at hbb
        rcases scaleBlits_covers hbb hcase with hmid | hmid <;> omega
      · subst htl
        rw [growthBlits, if_neg (by simp), if_pos rfl] at hbb
        rcases tileBlits_covers hsm hsh (by omega) (by omega) hbb hcase
          with hmid | hmid <;> omega

lemma resize_ok {src : Surface} {dw dhArg cl ct cr cb : ℤ} {grow : String}
    (hdiv : ¬(dhArg = 0 ∧ src.w = 0))
    (htile : ¬(grow = "tile" ∧ (src.w - cl - cr = 0 ∨ src.h - cb - ct = 0))) :
    resize_with_caps src (dw, dhArg) (some [cl, ct, cr, cb]) grow =
      .ok (paint
        (dstAfterCaps src dw (resolveDh src.w src.h dw dhArg) cl ct cr cb)
        (growthBlits src dw (resolveDh src.w src.h dw dhArg) cl ct cr cb grow)) := by
  simp only [resize_with_caps, resolveCaps]
  rw [if_neg hdiv, if_neg htile]

lemma resize_tile_degenerate {src : Surface} {dw dhArg cl ct cr cb : ℤ}
    (hdiv : ¬(dhArg = 0 ∧ src.w = 0))
    (hdeg : src.w - cl - cr = 0 ∨ src.h - cb - ct = 0) :
    resize_with_caps src (dw, dhArg) (some [cl, ct, cr, cb]) "tile" =
      .error .zeroDivisionError := by
  simp only [resize_with_caps, resolveCaps]
  rw [if_neg hdiv, if_pos ⟨by trivial, hdeg⟩]

/-- Concrete 3×4 test source; pixel values encode coordinates
(`1 + x + 10*y`), so distinct positions hold distinct values. -/
def src34 : Surface := ⟨3, 4, fun x y => x + 10 * y + 1⟩

/-- Concrete 4×3 test source. -/
def src43 : Surface := ⟨4, 3, fun x y => x + 10 * y + 1⟩

/-- Concrete 2×3 test source (zero-width middle with unit caps). -/
def src23 : Surface := ⟨2, 3, fun x y => x + 10 * y + 1⟩

/-- Concrete 3×3 test source (both dimensions odd). -/
def src33 : Surface := ⟨3, 3, fun x y => x + 10 * y + 1⟩

/-- Concrete 4×4 test source. -/
def src44 : Surface := ⟨4, 4, fun x y => x + 10 * y + 1⟩

/-- C2: for every valid input and both growth modes (Scale and Tile),
each of the four corner rectangles of the destination — top-left
`cl×ct` at `(0,0)`, top-right `cr×ct` at `(dw-cr,0)`, bottom-left
`cl×cb` at `(0,dh-cb)`, bottom-right `cr×cb` at `(dw-cr,dh-cb)` — is
pixel-identical to the corresponding corner rectangle of the source,
and the growth step never writes any pixel inside those rectangles. -/
theorem c2_corner_fidelity (src : Surface) (dw dhArg dh cl ct cr cb : ℤ)
    (grow : String)
    (hdh : dh = resolveDh src.w src.h dw dhArg)
    (hok : capsOk src dw dh cl ct cr cb ∧ ¬(dhArg = 0 ∧ src.w = 0))
    (hmode : (grow = "scale" ∨ grow = "stretch") ∨
      (grow = "tile" ∧ 0 < src.w - cl - cr ∧ 0 < src.h - cb - ct)) :
    resize_with_caps src (dw, dhArg) (some [cl, ct, cr, cb]) grow =
      .ok (paint (dstAfterCaps src dw dh cl ct cr cb)
            (growthBlits src dw dh cl ct cr cb grow)) ∧
    (∀ b ∈ growthBlits src dw dh cl ct cr cb grow, ∀ x y : ℤ,
       cornerPt dw dh cl ct cr cb x y → blitCovers dw dh b x y = false) ∧
    (∀ x y : ℤ, 0 ≤ x → x < cl → 0 ≤ y → y < ct →
       (paint (dstAfterCaps src dw dh cl ct cr cb)
         (growthBlits src dw dh cl ct cr cb grow)).pix x y = src.pix x y) ∧
    (∀ x y : ℤ, dw - cr ≤ x → x < dw → 0 ≤ y → y < ct →
       (paint (dstAfterCaps src dw dh cl ct cr cb)
         (growthBlits src dw dh cl ct cr cb grow)).pix x y =
           src.pix (x - dw + src.w) y) ∧
    (∀ x y : ℤ, 0 ≤ x → x < cl → dh - cb ≤ y → y < dh →
       (paint (dstAfterCaps src dw dh cl ct cr cb)
         (growthBlits src dw dh cl ct cr cb grow)).pix x y =
           src.pix x (y - dh + src.h)) ∧
    (∀ x y : ℤ, dw - cr ≤ x → x < dw → dh - cb ≤ y → y < dh →
       (paint (dstAfterCaps src dw dh cl ct cr cb)
         (growthBlits src dw dh cl ct cr cb grow)).pix x y =
           src.pix (x - dw + src.w) (y - dh + src.h)) := by
  obtain ⟨hcaps, hdiv⟩ := hok
  have htile' : ¬(grow = "tile" ∧ (src.w - cl - cr = 0 ∨ src.h - cb - ct = 0)) := by
    rintro ⟨hgt, hdeg⟩
    rcases hmode with hsc | ⟨-, hsm, hsh⟩
    · rcases hsc with h | h <;> (rw [h] at hgt; exact absurd hgt (by decide))
    · omega
  have hnc := growthBlits_not_cover_corners hcaps hmode
  refine ⟨?_, hnc, ?_, ?_, ?_, ?_⟩
  · rw [hdh]; exact resize_ok hdiv htile'
  · intro x y hx hx2 hy hy2
    rw [paint_pix_not_covered _ _ (dstAfterCaps_w src dw dh cl ct cr cb)
      (dstAfterCaps_h src dw dh cl ct cr cb) x y
      (fun b hb => hnc b hb x y ⟨Or.inl ⟨hx, hx2⟩, Or.inl ⟨hy, hy2⟩⟩)]
    exact dstAfterCaps_pix_topLeft hcaps hx hx2 hy hy2
  · intro x y hx hx2 hy hy2
    rw [paint_pix_not_covered _ _ (dstAfterCaps_w src dw dh cl ct cr cb)
      (dstAfterCaps_h src dw dh cl ct cr cb) x y
      (fun b hb => hnc b hb x y ⟨Or.inr ⟨hx, hx2⟩, Or.inl ⟨hy, hy2⟩⟩)]
    exact dstAfterCaps_pix_topRight hcaps hx hx2 hy hy2
  · intro x y hx hx2 hy hy2
    rw [paint_pix_not_covered _ _ (dstAfterCaps_w src dw dh cl ct cr cb)
      (dstAfterCaps_h src dw dh cl ct cr cb) x y
      (fun b hb => hnc b hb x y ⟨Or.inl ⟨hx, hx2⟩, Or.inr ⟨hy, hy2⟩⟩)]
    exact dstAfterCaps_pix_botLeft hcaps hx hx2 hy hy2
  · intro x y hx hx2 hy hy2
    rw [paint_pix_not_covered _ _ (dstAfterCaps_w src dw dh cl ct cr cb)
      (dstAfterCaps_h src dw dh cl ct cr cb) x y
      (fun b hb => hnc b hb x y ⟨Or.inr ⟨hx, hx2⟩, Or.inr ⟨hy, hy2⟩⟩)]
    exact dstAfterCaps_pix_botRight hcaps hx hx2 hy hy2

/-- Witness for C2 at a concrete input: source `src44` (4×4), caps
`(1,1,1,1)`, destination `6×6`, tile mode. -/
theorem c2_corner_fidelity_witness :
    ((6 : ℤ) = resolveDh src44.w src44.h 6 6 ∧
     (capsOk src44 6 6 1 1 1 1 ∧ ¬((6 : ℤ) = 0 ∧ src44.w = 0)) ∧
     (("tile" = "scale" ∨ "tile" = "stretch") ∨
      ("tile" = "tile" ∧ (0 : ℤ) < src44.w - 1 - 1 ∧ (0 : ℤ) < src44.h - 1 - 1))) ∧
    (resize_with_caps src44 (6, 6) (some [1, 1, 1, 1]) "tile" =
      .ok (paint (dstAfterCaps src44 6 6 1 1 1 1)
            (growthBlits src44 6 6 1 1 1 1 "tile")) ∧
    (∀ b ∈ growthBlits src44 6 6 1 1 1 1 "tile", ∀ x y : ℤ,
       cornerPt 6 6 1 1 1 1 x y → blitCovers 6 6 b x y = false) ∧
    (∀ x y : ℤ, 0 ≤ x → x < 1 → 0 ≤ y → y < 1 →
       (paint (dstAfterCaps src44 6 6 1 1 1 1)
         (growthBlits src44 6 6 1 1 1 1 "tile")).pix x y = src44.pix x y) ∧
    (∀ x y : ℤ, 6 - 1 ≤ x → x < 6 → 0 ≤ y → y < 1 →
       (paint (dstAfterCaps src44 6 6 1 1 1 1)
         (growthBlits src44 6 6 1 1 1 1 "tile")).pix x y =
           src44.pix (x - 6 + src44.w) y) ∧
    (∀ x y : ℤ, 0 ≤ x → x < 1 → 6 - 1 ≤ y → y < 6 →
       (paint (dstAfterCaps src44 6 6 1 1 1 1)
         (growthBlits src44 6 6 1 1 1 1 "tile")).pix x y =
           src44.pix x (y - 6 + src44.h)) ∧
    (∀ x y : ℤ, 6 - 1 ≤ x → x < 6 → 6 - 1 ≤ y → y < 6 →
       (paint (dstAfterCaps src44 6 6 1 1 1 1)
         (growthBlits src44 6 6 1 1 1 1 "tile")).pix x y =
           src44.pix (x - 6 + src44.w) (y - 6 + src44.h))) :=
  ⟨⟨by decide, ⟨by decide, by decide⟩, by decide⟩,
   c2_corner_fidelity src44 6 6 6 1 1 1 1 "tile" (by decide)
     ⟨by decide, by decide⟩ (by decide)⟩

/-- C1 fails on the code: with source `src34` (3×4, caps `(1,1,1,1)`,
so `smh = 2 ≠ cb = 1`) and destination 3×4 in tile mode, the
bottom-edge strip pixel `(1, 3)` — column range `[cl, dw-cr) = [1, 2)`,
row range `[dh-cb, dh) = [3, 4)` — is written by no growth blit (a
gap, because line 129 places `H` at `y = dh - smh` instead of
`y = dh - cb`), while the center pixel `(1, 2)` — rows `[ct, dh-cb) =
[1, 3)` — is written twice (once by the misplaced `H`, once by the
center tiling).  So the tile scheme does not write every pixel of the
five growable regions exactly once. -/
theorem c1_tile_coverage_gap_and_double_write :
    ((1 : ℤ) ≤ 1 ∧ (1 : ℤ) < 3 - 1 ∧ (4 : ℤ) - 1 ≤ 3 ∧ (3 : ℤ) < 4 ∧
      writeCount 3 4 (tileBlits src34 3 4 1 1 1 1) 1 3 = 0) ∧
    ((1 : ℤ) ≤ 1 ∧ (1 : ℤ) < 3 - 1 ∧ (1 : ℤ) ≤ 2 ∧ (2 : ℤ) < 4 - 1 ∧
      writeCount 3 4 (tileBlits src34 3 4 1 1 1 1) 1 2 = 2) := by
  constructor
  · refine ⟨by decide, by decide, by decide, by decide, by decide⟩
  · refine ⟨by decide, by decide, by decide, by decide, by decide⟩

/-- C3 fails on the code: with `cap_insets` omitted the call never
produces an image.  For an odd×odd source (`src33`, 3×3) the assert on
line 72 passes but line 73 (`cl, cr = sw // 2`) unpacks an `int` and
raises `TypeError`; for a source with even width (`src23`, 2×3) the
assert itself fails (`AssertionError`).  The claim says the odd×odd
call proceeds and produces an image with `cl = cr = sw // 2`. -/
theorem c3_omitted_caps_always_raise :
    resize_with_caps src33 (5, 5) none "scale" = .error .typeError ∧
    resize_with_caps src23 (5, 5) none "scale" = .error .assertionError :=
  ⟨rfl, rfl⟩

/-- C4 fails on the code: identity resize (`dest_size = source size`)
in tile mode is not the identity.  For `src43` (4×3, caps
`(1,1,1,1)`, so `smw = 2 ≠ cr = 1`), line 140 places the right edge
`F` at `x = dw - smw = 2` instead of `x = dw - cr = 3`; the right-edge
pixel `(3, 1)` is then never written and stays transparent (`0`),
while the source holds `14` there. -/
theorem c4_identity_tile_not_identity :
    pixAt (resize_with_caps src43 (4, 3) (some [1, 1, 1, 1]) "tile") 3 1 =
      some 0 ∧
    src43.pix 3 1 = 14 := by
  constructor
  · rfl
  · decide

/-- C5 fails on the code as stated: a Tile-mode call on `src23` (2×3,
caps `(1,1,1,1)`, so `smw = 0`) is indeed rejected synchronously
(`ZeroDivisionError` at line 114), but only after the destination has
been allocated and the four corner blits executed: the buffer state at
the moment of the failure, `dstAfterCaps`, already holds the source
corner pixel `1` at `(0,0)`, not the transparent `0` of the fresh
buffer.  So pixel copying does begin before the error is detected. -/
theorem c5_counterexample :
    resize_with_caps src23 (2, 3) (some [1, 1, 1, 1]) "tile" =
      .error .zeroDivisionError ∧
    (dstAfterCaps src23 2 3 1 1 1 1).pix 0 0 = 1 ∧
    (mkBlank 2 3).pix 0 0 = 0 := by
  refine ⟨rfl, by decide, rfl⟩

/-- C5 amended: a degenerate Tile-mode call (`smw = 0` or `smh = 0`)
raises `ZeroDivisionError` synchronously and returns no image, but
the error is detected only after the corner-copy phase: the
destination buffer at the moment of the error (`dstAfterCaps`)
already contains all four source corner rectangles. -/
theorem c5_degenerate_tile_error_after_caps (src : Surface)
    (dw dhArg dh cl ct cr cb : ℤ)
    (hdh : dh = resolveDh src.w src.h dw dhArg)
    (h : capsOk src dw dh cl ct cr cb ∧ ¬(dhArg = 0 ∧ src.w = 0) ∧
         (src.w - cl - cr = 0 ∨ src.h - cb - ct = 0)) :
    resize_with_caps src (dw, dhArg) (some [cl, ct, cr, cb]) "tile" =
      .error .zeroDivisionError ∧
    (∀ x y : ℤ, 0 ≤ x → x < cl → 0 ≤ y → y < ct →
       (dstAfterCaps src dw dh cl ct cr cb).pix x y = src.pix x y) ∧
    (∀ x y : ℤ, dw - cr ≤ x → x < dw → 0 ≤ y → y < ct →
       (dstAfterCaps src dw dh cl ct cr cb).pix x y =
         src.pix (x - dw + src.w) y) ∧
    (∀ x y : ℤ, 0 ≤ x → x < cl → dh - cb ≤ y → y < dh →
       (dstAfterCaps src dw dh cl ct cr cb).pix x y =
         src.pix x (y - dh + src.h)) ∧
    (∀ x y : ℤ, dw - cr ≤ x → x < dw → dh - cb ≤ y → y < dh →
       (dstAfterCaps src dw dh cl ct cr cb).pix x y =
         src.pix (x - dw + src.w) (y - dh + src.h)) := by
  obtain ⟨hcaps, hdiv, hdeg⟩ := h
  refine ⟨resize_tile_degenerate hdiv hdeg, ?_, ?_, ?_, ?_⟩
  · intro x y hx hx2 hy hy2
    exact dstAfterCaps_pix_topLeft hcaps hx hx2 hy hy2
  · intro x y hx hx2 hy hy2
    exact dstAfterCaps_pix_topRight hcaps hx hx2 hy hy2
  · intro x y hx hx2 hy hy2
    exact dstAfterCaps_pix_botLeft hcaps hx hx2 hy hy2
  · intro x y hx hx2 hy hy2
    exact dstAfterCaps_pix_botRight hcaps hx hx2 hy hy2

/-- Witness for the amended C5 at a concrete input: `src23` (2×3,
`smw = 0`), caps `(1,1,1,1)`, destination `2×3`, tile mode. -/
theorem c5_degenerate_tile_error_after_caps_witness :
    ((3 : ℤ) = resolveDh src23.w src23.h 2 3 ∧
     (capsOk src23 2 3 1 1 1 1 ∧ ¬((3 : ℤ) = 0 ∧ src23.w = 0) ∧
      (src23.w - 1 - 1 = 0 ∨ src23.h - 1 - 1 = 0))) ∧
    (resize_with_caps src23 (2, 3) (some [1, 1, 1, 1]) "tile" =
      .error .zeroDivisionError ∧
    (∀ x y : ℤ, 0 ≤ x → x < 1 → 0 ≤ y → y < 1 →
       (dstAfterCaps src23 2 3 1 1 1 1).pix x y = src23.pix x y) ∧
    (∀ x y : ℤ, 2 - 1 ≤ x → x < 2 → 0 ≤ y → y < 1 →
       (dstAfterCaps src23 2 3 1 1 1 1).pix x y =
         src23.pix (x - 2 + src23.w) y) ∧
    (∀ x y : ℤ, 0 ≤ x → x < 1 → 3 - 1 ≤ y → y < 3 →
       (dstAfterCaps src23 2 3 1 1 1 1).pix x y =
         src23.pix x (y - 3 + src23.h)) ∧
    (∀ x y : ℤ, 2 - 1 ≤ x → x < 2 → 3 - 1 ≤ y → y < 3 →
       (dstAfterCaps src23 2 3 1 1 1 1).pix x y =
         src23.pix (x - 2 + src23.w) (y - 3 + src23.h))) :=
  ⟨⟨by decide, ⟨by decide, by decide, by decide⟩⟩,
   c5_degenerate_tile_error_after_caps src23 2 3 3 1 1 1 1 (by decide)
     ⟨by decide, by decide, by decide⟩⟩

lemma resize_unrecognized {src : Surface} {dw dhArg cl ct cr cb : ℤ}
    {grow : String} (h1 : grow ≠ "scale") (h2 : grow ≠ "stretch")
    (h3 : grow ≠ "tile") (h4 : ¬(dhArg = 0 ∧ src.w = 0)) :
    resize_with_caps src (dw, dhArg) (some [cl, ct, cr, cb]) grow =
      .ok (dstAfterCaps src dw (resolveDh src.w src.h dw dhArg) cl ct cr cb) := by
  rw [resize_ok h4 (fun hc => h3 hc.1)]
  rw [growthBlits, if_neg (by rintro (h | h); exacts [h1 h, h2 h]), if_neg h3]
  rfl

/-- C6 fails on the code: a call with the unrecognized growth mode
string `"bogus"` is not rejected — no branch of the `if`/`elif` chain
matches, and the function silently returns the destination containing
only the four copied corners. -/
theorem c6_counterexample :
    resize_with_caps src43 (6, 5) (some [1, 1, 1, 1]) "bogus" =
      .ok (dstAfterCaps src43 6 5 1 1 1 1) := by
  exact resize_unrecognized (by decide) (by decide) (by decide) (by decide)

/-- C6 amended: for every valid input (explicit caps fitting both the
source and the resolved destination, as in spec §3) whose growth-mode
argument is none of `'scale'`, `'stretch'`, `'tile'`, the call raises
no error at all: it silently falls through the mode dispatch and
returns the destination surface with only the corner blits applied
(no growth writes).  The validity hypothesis matters: outside it the
real code can fail before the mode dispatch (out-of-bounds
`subsurface`, negative allocation size), paths the embedding does not
model. -/
theorem c6_unrecognized_mode_not_rejected (src : Surface)
    (dw dhArg dh cl ct cr cb : ℤ) (grow : String)
    (hdh : dh = resolveDh src.w src.h dw dhArg)
    (h : capsOk src dw dh cl ct cr cb ∧ ¬(dhArg = 0 ∧ src.w = 0) ∧
         grow ≠ "scale" ∧ grow ≠ "stretch" ∧ grow ≠ "tile") :
    resize_with_caps src (dw, dhArg) (some [cl, ct, cr, cb]) grow =
      .ok (dstAfterCaps src dw dh cl ct cr cb) := by
  obtain ⟨-, hdiv, h1, h2, h3⟩ := h
  rw [hdh]
  exact resize_unrecognized h1 h2 h3 hdiv

/-- Witness for the amended C6 at a concrete input: mode `"linear"`
on `src34` with valid caps `(1,1,1,1)` and destination `4×5`. -/
theorem c6_unrecognized_mode_not_rejected_witness :
    ((5 : ℤ) = resolveDh src34.w src34.h 4 5 ∧
     (capsOk src34 4 5 1 1 1 1 ∧ ¬((5 : ℤ) = 0 ∧ src34.w = 0) ∧
      "linear" ≠ "scale" ∧ "linear" ≠ "stretch" ∧ "linear" ≠ "tile")) ∧
    resize_with_caps src34 (4, 5) (some [1, 1, 1, 1]) "linear" =
      .ok (dstAfterCaps src34 4 5 1 1 1 1) :=
  ⟨⟨by decide, ⟨by decide, by decide, by decide, by decide, by decide⟩⟩,
   c6_unrecognized_mode_not_rejected src34 4 5 5 1 1 1 1 "linear" (by decide)
     ⟨by decide, by decide, by decide, by decide, by decide⟩⟩

/-- C7 fails on the code: the symmetric two-value cap form is not
accepted even for a valid pair.  `(1, 1)` is a valid symmetric pair
for the 4×3 source `src43` (`2·cw = 2 ≤ 4` and `2·ch = 2 ≤ 3`) and
the destination `6×5` is large enough on both axes, yet line 76
unpacks `cap_insets` into exactly four values, so the pair raises
`ValueError` and no image is produced. -/
theorem c7_counterexample :
    resize_with_caps src43 (6, 5) (some [1, 1]) "scale" =
      .error .valueError := rfl

/-- C7 amended: `resize_with_caps` accepts exactly the four-value
`(left, top, right, bottom)` cap form; any other length — in
particular the symmetric two-value `(cw, ch)` form the claim calls the
required minimum — fails to unpack (`ValueError`). -/
theorem c7_four_value_caps_only (sw sh cl ct cr cb a b : ℤ) :
    resolveCaps sw sh (some [cl, ct, cr, cb]) = .ok (cl, ct, cr, cb) ∧
    resolveCaps sw sh (some [a, b]) = .error .valueError :=
  ⟨rfl, rfl⟩

/-- C8: when the requested destination height is the sentinel `0`, the
resolved height is the real number `sh * dw / sw` truncated toward
zero (for these nonnegative sizes, floor); the Python float division
on line 80 is modelled as exact real division. -/
theorem c8_aspect_height_truncation (sw sh dw : ℤ)
    (h : 0 < sw ∧ 0 ≤ sh ∧ 0 ≤ dw) :
    resolveDh sw sh dw 0 = truncToZero ((sh : ℚ) * (dw : ℚ) / (sw : ℚ)) := by
  obtain ⟨h1, h2, h3⟩ := h
  have hq : (0 : ℚ) ≤ (sh : ℚ) * (dw : ℚ) / (sw : ℚ) := by
    apply div_nonneg
    · exact mul_nonneg (by exact_mod_cast h2) (by exact_mod_cast h3)
    · exact_mod_cast h1.le
  rw [resolveDh, if_pos rfl, truncToZero, if_pos hq]
  have hsw : ((sw.toNat : ℕ) : ℚ) = (sw : ℚ) := by
    exact_mod_cast Int.toNat_of_nonneg h1.le
  have hcast : ((sh * dw : ℤ) : ℚ) / ((sw.toNat : ℕ) : ℚ)
      = (sh : ℚ) * (dw : ℚ) / (sw : ℚ) := by
    rw [hsw]
    push_cast
    ring
  rw [← hcast, Rat.floor_intCast_div_natCast]
  rw [Int.toNat_of_nonneg h1.le]

/-- Witness for C8 at a concrete input: source 4 wide and 3 tall,
requested width 10 — resolved height `⌊7.5⌋ = 7`. -/
theorem c8_aspect_height_truncation_witness :
    ((0 : ℤ) < 4 ∧ (0 : ℤ) ≤ 3 ∧ (0 : ℤ) ≤ 10) ∧
    resolveDh 4 3 10 0 = truncToZero ((3 : ℚ) * (10 : ℚ) / (4 : ℚ)) :=
  ⟨⟨by decide, by decide, by decide⟩,
   c8_aspect_height_truncation 4 3 10 ⟨by decide, by decide, by decide⟩⟩

/-- C10: for any growth-mode string other than the three recognized
values, the call raises no error and returns a surface of the resolved
destination size in which the four corner rectangles are copied from
the source and every other in-bounds pixel is unwritten, i.e. still
the transparent `0` of the freshly allocated buffer. -/
theorem c10_unrecognized_mode_corners_only (src : Surface)
    (dw dhArg dh cl ct cr cb : ℤ) (grow : String)
    (hdh : dh = resolveDh src.w src.h dw dhArg)
    (h : capsOk src dw dh cl ct cr cb ∧ ¬(dhArg = 0 ∧ src.w = 0) ∧
         grow ≠ "scale" ∧ grow ≠ "stretch" ∧ grow ≠ "tile") :
    resize_with_caps src (dw, dhArg) (some [cl, ct, cr, cb]) grow =
      .ok (dstAfterCaps src dw dh cl ct cr cb) ∧
    (dstAfterCaps src dw dh cl ct cr cb).w = dw ∧
    (dstAfterCaps src dw dh cl ct cr cb).h = dh ∧
    (∀ x y : ℤ, 0 ≤ x → x < cl → 0 ≤ y → y < ct →
       (dstAfterCaps src dw dh cl ct cr cb).pix x y = src.pix x y) ∧
    (∀ x y : ℤ, dw - cr ≤ x → x < dw → 0 ≤ y → y < ct →
       (dstAfterCaps src dw dh cl ct cr cb).pix x y =
         src.pix (x - dw + src.w) y) ∧
    (∀ x y : ℤ, 0 ≤ x → x < cl → dh - cb ≤ y → y < dh →
       (dstAfterCaps src dw dh cl ct cr cb).pix x y =
         src.pix x (y - dh + src.h)) ∧
    (∀ x y : ℤ, dw - cr ≤ x → x < dw → dh - cb ≤ y → y < dh →
       (dstAfterCaps src dw dh cl ct cr cb).pix x y =
         src.pix (x - dw + src.w) (y - dh + src.h)) ∧
    (∀ x y : ℤ, 0 ≤ x → x < dw → 0 ≤ y → y < dh →
       ¬cornerPt dw dh cl ct cr cb x y →
       (dstAfterCaps src dw dh cl ct cr cb).pix x y = 0) := by
  obtain ⟨hcaps, hdiv, h1, h2, h3⟩ := h
  refine ⟨?_, dstAfterCaps_w src dw dh cl ct cr cb,
    dstAfterCaps_h src dw dh cl ct cr cb, ?_, ?_, ?_, ?_, ?_⟩
  · rw [hdh]; exact resize_unrecognized h1 h2 h3 hdiv
  · intro x y hx hx2 hy hy2
    exact dstAfterCaps_pix_topLeft hcaps hx hx2 hy hy2
  · intro x y hx hx2 hy hy2
    exact dstAfterCaps_pix_topRight hcaps hx hx2 hy hy2
  · intro x y hx hx2 hy hy2
    exact dstAfterCaps_pix_botLeft hcaps hx hx2 hy hy2
  · intro x y hx hx2 hy hy2
    exact dstAfterCaps_pix_botRight hcaps hx hx2 hy hy2
  · intro x y hx hx2 hy hy2 hnc
    apply dstAfterCaps_pix_middle hcaps
    unfold cornerPt at hnc
    omega

/-- Witness for C10 at a concrete input: mode `"grid"` on `src44`,
destination `6×7`. -/
theorem c10_unrecognized_mode_corners_only_witness :
    ((7 : ℤ) = resolveDh src44.w src44.h 6 7 ∧
     (capsOk src44 6 7 1 1 1 1 ∧ ¬((7 : ℤ) = 0 ∧ src44.w = 0) ∧
      "grid" ≠ "scale" ∧ "grid" ≠ "stretch" ∧ "grid" ≠ "tile")) ∧
    (resize_with_caps src44 (6, 7) (some [1, 1, 1, 1]) "grid" =
      .ok (dstAfterCaps src44 6 7 1 1 1 1) ∧
    (dstAfterCaps src44 6 7 1 1 1 1).w = 6 ∧
    (dstAfterCaps src44 6 7 1 1 1 1).h = 7 ∧
    (∀ x y : ℤ, 0 ≤ x → x < 1 → 0 ≤ y → y < 1 →
       (dstAfterCaps src44 6 7 1 1 1 1).pix x y = src44.pix x y) ∧
    (∀ x y : ℤ, 6 - 1 ≤ x → x < 6 → 0 ≤ y → y < 1 →
       (dstAfterCaps src44 6 7 1 1 1 1).pix x y =
         src44.pix (x - 6 + src44.w) y) ∧
    (∀ x y : ℤ, 0 ≤ x → x < 1 → 7 - 1 ≤ y → y < 7 →
       (dstAfterCaps src44 6 7 1 1 1 1).pix x y =
         src44.pix x (y - 7 + src44.h)) ∧
    (∀ x y : ℤ, 6 - 1 ≤ x → x < 6 → 7 - 1 ≤ y → y < 7 →
       (dstAfterCaps src44 6 7 1 1 1 1).pix x y =
         src44.pix (x - 6 + src44.w) (y - 7 + src44.h)) ∧
    (∀ x y : ℤ, 0 ≤ x → x < 6 → 0 ≤ y → y < 7 →
       ¬cornerPt 6 7 1 1 1 1 x y →
       (dstAfterCaps src44 6 7 1 1 1 1).pix x y = 0)) :=
  ⟨⟨by decide, ⟨by decide, by decide, by decide, by decide, by decide⟩⟩,
   c10_unrecognized_mode_corners_only src44 6 7 7 1 1 1 1 "grid" (by decide)
     ⟨by decide, by decide, by decide, by decide, by decide⟩⟩

/-- C9: in Tile mode every clipped (partial) blit of the growth step
sources from the tile's leading (top-left) corner — its clip rectangle
has origin `(0, 0)` — and spans exactly the remainder along the
partial axis: a clip narrower than the tile has width equal to the
horizontal remainder `dmw - (dmw // smw) * smw` and sits at the far
edge `x = cl + n_across * smw`; a clip shorter than the tile has
height equal to the vertical remainder and sits at the far edge
`y = ct + n_down * smh`.  (Clipped blits exist only when the
corresponding remainder is positive, i.e. when the destination middle
is not an exact multiple of the source tile.) -/
theorem c9_partial_tile_leading_corner (src : Surface) (dw dh cl ct cr cb : ℤ) :
    ∀ b ∈ tileBlits src dw dh cl ct cr cb, ∀ c : Rect, b.clip = some c →
      c.x = 0 ∧ c.y = 0 ∧
      ((c.w = (dw - cl - cr) - (dw - cl - cr) / (src.w - cl - cr) * (src.w - cl - cr) ∧
        0 < c.w ∧
        b.px = cl + (((dw - cl - cr) / (src.w - cl - cr)).toNat : ℤ) * (src.w - cl - cr)) ∨
       c.w = b.tile.w) ∧
      ((c.h = (dh - cb - ct) - (dh - cb - ct) / (src.h - cb - ct) * (src.h - cb - ct) ∧
        0 < c.h ∧
        b.py = ct + (((dh - cb - ct) / (src.h - cb - ct)).toNat : ℤ) * (src.h - cb - ct)) ∨
       c.h = b.tile.h) := by
  intro b hb c hclip
  simp only [tileBlits, List.mem_append] at hb
  rcases hb with ((((hm | hm) | hm) | hm) | hm) | hm
  · rcases List.mem_append.1 hm with hm2 | hm2
    · obtain ⟨i, hi, rfl⟩ := List.mem_map.1 hm2
      exact Option.noConfusion hclip
    · by_cases hra : 0 < (dw - cl - cr) - (dw - cl - cr) / (src.w - cl - cr) * (src.w - cl - cr)
      · simp only [hra, if_pos, List.mem_singleton] at hm2
        subst hm2
        injection hclip with hc
        subst hc
        exact ⟨rfl, rfl, Or.inl ⟨rfl, hra, rfl⟩, Or.inr rfl⟩
      · simp [hra] at hm2
  · rcases List.mem_append.1 hm with hm2 | hm2
    · obtain ⟨i, hi, rfl⟩ := List.mem_map.1 hm2
      exact Option.noConfusion hclip
    · by_cases hra : 0 < (dw - cl - cr) - (dw - cl - cr) / (src.w - cl - cr) * (src.w - cl - cr)
      · simp only [hra, if_pos, List.mem_singleton] at hm2
        subst hm2
        injection hclip with hc
        subst hc
        exact ⟨rfl, rfl, Or.inl ⟨rfl, hra, rfl⟩, Or.inr rfl⟩
      · simp [hra] at hm2
  · rcases List.mem_append.1 hm with hm2 | hm2
    · obtain ⟨i, hi, rfl⟩ := List.mem_map.1 hm2
      exact Option.noConfusion hclip
    · by_cases hrd : 0 < (dh - cb - ct) - (dh - cb - ct) / (src.h - cb - ct) * (src.h - cb - ct)
      · simp only [hrd, if_pos, List.mem_singleton] at hm2
        subst hm2
        injection hclip with hc
        subst hc
        exact ⟨rfl, rfl, Or.inr rfl, Or.inl ⟨rfl, hrd, rfl⟩⟩
      · simp [hrd] at hm2
  · rcases List.mem_append.1 hm with hm2 | hm2
    · obtain ⟨i, hi, rfl⟩ := List.mem_map.1 hm2
      exact Option.noConfusion hclip
    · by_cases hrd : 0 < (dh - cb - ct) - (dh - cb - ct) / (src.h - cb - ct) * (src.h - cb - ct)
      · simp only [hrd, if_pos, List.mem_singleton] at hm2
        subst hm2
        injection hclip with hc
        subst hc
        exact ⟨rfl, rfl, Or.inr rfl, Or.inl ⟨rfl, hrd, rfl⟩⟩
      · simp [hrd] at hm2
  · obtain ⟨j, hj, hmem⟩ := List.mem_flatMap.1 hm
    rcases List.mem_append.1 hmem with hm2 | hm2
    · obtain ⟨i, hi, rfl⟩ := List.mem_map.1 hm2
      exact Option.noConfusion hclip
    · by_cases hra : 0 < (dw - cl - cr) - (dw - cl - cr) / (src.w - cl - cr) * (src.w - cl - cr)
      · simp only [hra, if_pos, List.mem_singleton] at hm2
        subst hm2
        injection hclip with hc
        subst hc
        exact ⟨rfl, rfl, Or.inl ⟨rfl, hra, rfl⟩, Or.inr rfl⟩
      · simp [hra] at hm2
  · by_cases hrd : 0 < (dh - cb - ct) - (dh - cb - ct) / (src.h - cb - ct) * (src.h - cb - ct)
    · simp only [hrd, if_pos, List.mem_append] at hm
      rcases hm with hm2 | hm2
      · obtain ⟨i, hi, rfl⟩ := List.mem_map.1 hm2
        injection hclip with hc
        subst hc
        exact ⟨rfl, rfl, Or.inr rfl, Or.inl ⟨rfl, hrd, rfl⟩⟩
      · by_cases hra : 0 < (dw - cl - cr) - (dw - cl - cr) / (src.w - cl - cr) * (src.w - cl - cr)
        · simp only [hra, if_pos, List.mem_singleton] at hm2
          subst hm2
          injection hclip with hc
          subst hc
          exact ⟨rfl, rfl, Or.inl ⟨rfl, hra, rfl⟩, Or.inl ⟨rfl, hrd, rfl⟩⟩
        · simp [hra] at hm2
    · simp [hrd] at hm

/-- Witness for C9 at a concrete input: `src44` (4×4, caps
`(1,1,1,1)`, tiles 2×2) into a 3×3 destination, whose middle is 1×1 —
the first tile blit of the growth step is the partial top-edge blit at
the far edge with clip `Rect(0, 0, 1, 1)`. -/
theorem c9_partial_tile_leading_corner_witness :
    ((⟨subsurface src44 1 0 2 1, 1, 0, some ⟨0, 0, 1, 1⟩⟩ : Blit) ∈
       tileBlits src44 3 3 1 1 1 1) ∧
    (⟨subsurface src44 1 0 2 1, 1, 0, some ⟨0, 0, 1, 1⟩⟩ : Blit).clip =
      some ⟨0, 0, 1, 1⟩ ∧
    ((0 : ℤ) = 0 ∧ (0 : ℤ) = 0 ∧
     (((1 : ℤ) = (3 - 1 - 1) - (3 - 1 - 1) / (src44.w - 1 - 1) * (src44.w - 1 - 1) ∧
       (0 : ℤ) < 1 ∧
       (1 : ℤ) = 1 + ((((3 : ℤ) - 1 - 1) / (src44.w - 1 - 1)).toNat : ℤ) * (src44.w - 1 - 1)) ∨
      (1 : ℤ) = (subsurface src44 1 0 2 1).w) ∧
     (((1 : ℤ) = (3 - 1 - 1) - (3 - 1 - 1) / (src44.h - 1 - 1) * (src44.h - 1 - 1) ∧
       (0 : ℤ) < 1 ∧
       (0 : ℤ) = 1 + ((((3 : ℤ) - 1 - 1) / (src44.h - 1 - 1)).toNat : ℤ) * (src44.h - 1 - 1)) ∨
      (1 : ℤ) = (subsurface src44 1 0 2 1).h)) :=
  ⟨List.Mem.head _, rfl,
   c9_partial_tile_leading_corner src44 3 3 1 1 1 1 _ (List.Mem.head _)
     ⟨0, 0, 1, 1⟩ rfl⟩
